import Mathlib

/-!
# Verification of the OKX grid-trading scripts

Shallow embedding, in Lean 4, of the numeric and decision logic of the
repository (grid ladder construction, position sizing, risk gating,
indicator computations, signal generation, candle normalisation and the
retry wrapper), together with theorems settling the specification claims.

Numbers are modelled as exact rationals.  Python's `round(x, n)`
(round-half-to-even) is modelled by `pyRound` / `round_dp`.  Fallible
Python functions (those that `raise`) are modelled with `Except` or
`Option`.  File layout: all definitions first, then all theorems.
-/

namespace GridBot

/-! ## Python-style rounding -/

/-- Python's builtin `round` on a rational, to an integer: round half to even. -/
def pyRound (x : ℚ) : ℤ :=
  if x - x.floor < 1/2 then x.floor
  else if 1/2 < x - x.floor then x.floor + 1
  else if x.floor % 2 = 0 then x.floor else x.floor + 1

/-- Python's `round(x, n)` on a rational. -/
def round_dp (n : ℕ) (x : ℚ) : ℚ := ((pyRound (x * 10 ^ n) : ℚ)) / 10 ^ n

/-- Python list slice `l[-k:]` (note that `l[-0:]` is the whole list). -/
def pySliceLast (k : ℕ) (l : List ℚ) : List ℚ :=
  if k = 0 then l else l.drop (l.length - k)

/-! ## Data model -/

/-- The trading signal emitted by the signal generator of `okx_trade_tool.py`. -/
inductive Signal
  | buy
  | sell
  | hold
deriving DecidableEq, Repr

/-- Candle as produced by `fetch_candles` in `src/okx_api.py`:
timestamps are divided by 1000 (seconds), OHLCV are floats. -/
structure Candle where
  timestamp : ℚ
  open_ : ℚ
  high : ℚ
  low : ℚ
  close : ℚ
  volume : ℚ
deriving DecidableEq, Repr

/-- Candle as produced by `fetch_okx_candles` in `okx_trade_tool.py`:
the timestamp is kept as an integer number of milliseconds. -/
structure CandleT where
  ts : ℤ
  open_ : ℚ
  high : ℚ
  low : ℚ
  close : ℚ
  vol : ℚ
deriving DecidableEq, Repr

/-- One raw row of the exchange response `data["data"]` (already parsed
to numbers; the exchange sends strings). -/
structure RawRow where
  ts : ℤ
  o : ℚ
  h : ℚ
  l : ℚ
  c : ℚ
  v : ℚ
deriving DecidableEq, Repr

namespace Utils

/-! ## `src/src/utils.py` -/

/-- An event of the retry wrapper's visible behaviour: one attempted call of
the wrapped function (with its success flag), or one `time.sleep(d)`. -/
inductive RetryEvent
  | attempt (ok : Bool)
  | sleep (d : ℚ)
deriving DecidableEq, Repr

/-- One execution of the loop body of `request_retry`'s `wrapper`
(`utils.py` lines 41-47).  `behavior i` is the outcome of the `i`-th call of
the wrapped function: `some a` models a normal return, `none` models a raised
exception.  Returns the event trace and the overall outcome (`none` models
the final `raise` of line 48). -/
def request_retry_go (behavior : ℕ → Option α) (retry_delay : ℚ) :
    ℕ → ℕ → List RetryEvent × Option α
  | 0, _ => ([], none)
  | n + 1, i =>
    match behavior i with
    | some a => ([RetryEvent.attempt true], some a)
    | none =>
      let rest := request_retry_go behavior retry_delay n (i + 1)
      (RetryEvent.attempt false :: RetryEvent.sleep retry_delay :: rest.1, rest.2)

/-- A full run of a function wrapped by `request_retry(retry_times, retry_delay)`
(`utils.py` lines 39-50). -/
def request_retry_run (behavior : ℕ → Option α) (retry_times : ℕ)
    (retry_delay : ℚ) : List RetryEvent × Option α :=
  request_retry_go behavior retry_delay retry_times 0

/-- Number of calls of the wrapped function in a retry trace. -/
def numAttempts (tr : List RetryEvent) : ℕ :=
  tr.countP fun e => match e with | RetryEvent.attempt _ => true | _ => false

/-- Number of sleeps in a retry trace. -/
def numSleeps (tr : List RetryEvent) : ℕ :=
  tr.countP fun e => match e with | RetryEvent.sleep _ => true | _ => false

/-- `np.diff` of the close prices (`utils.py` line 167). -/
def close_deltas (candles : List Candle) : List ℚ :=
  ((candles.map Candle.close).zip ((candles.map Candle.close).drop 1)).map
    fun p => p.2 - p.1

/-- The local `gains` of `calculate_rsi` (`utils.py` line 168):
`deltas[deltas > 0]`. -/
def gains_of (candles : List Candle) : List ℚ :=
  (close_deltas candles).filter fun d => 0 < d

/-- The local `losses` of `calculate_rsi` (`utils.py` line 169):
`-deltas[deltas < 0]`. -/
def losses_of (candles : List Candle) : List ℚ :=
  ((close_deltas candles).filter fun d => d < 0).map fun d => -d

/-- The local `avg_gain` of `calculate_rsi` (`utils.py` line 171):
`np.mean(gains[:period])` when any gain exists, else `0.0`; `np.mean` of a
segment divides by the length of that segment. -/
def avg_gain_of (candles : List Candle) (period : ℕ) : ℚ :=
  if 0 < (gains_of candles).length then
    ((gains_of candles).take period).sum / (((gains_of candles).take period).length : ℚ)
  else 0

/-- The local `avg_loss` of `calculate_rsi` (`utils.py` line 172). -/
def avg_loss_of (candles : List Candle) (period : ℕ) : ℚ :=
  if 0 < (losses_of candles).length then
    ((losses_of candles).take period).sum / (((losses_of candles).take period).length : ℚ)
  else 0

/-- `calculate_rsi` (`utils.py` lines 162-178). -/
def calculate_rsi (candles : List Candle) (period : ℕ) : Except String ℚ :=
  if candles.length < period + 1 then
    Except.error "insufficient candles for RSI"
  else if avg_loss_of candles period = 0 then Except.ok 100
  else
    Except.ok (round_dp 2
      (100 - 100 / (1 + avg_gain_of candles period / avg_loss_of candles period)))

/-- The list of true ranges (`utils.py` lines 333-342): one entry per
consecutive pair of candles. -/
def true_ranges (candles : List Candle) : List ℚ :=
  (candles.zip (candles.drop 1)).map fun p =>
    max (p.2.high - p.2.low) (max |p.2.high - p.1.close| |p.2.low - p.1.close|)

/-- `calculate_atr` (`utils.py` lines 330-343).  Note the guard is
`len(candles) < period` (not `period + 1`) and the divisor is `period`
even when fewer than `period` true ranges exist. -/
def calculate_atr (candles : List Candle) (period : ℕ) : Except String ℚ :=
  if candles.length < period then
    Except.error "insufficient candles for ATR"
  else
    Except.ok (round_dp 4 ((pySliceLast period (true_ranges candles)).sum / period))

end Utils

namespace OkxApi

/-! ## `src/src/okx_api.py` -/

/-- `get_okx_domain` (`okx_api.py` lines 10-16); the `ValueError` branch is
modelled as `Except.error`. -/
def get_okx_domain (env : String) : Except String String :=
  if env = "实盘" then Except.ok "https://www.okx.com"
  else if env = "模拟盘" then Except.ok "https://www.okx.cab"
  else Except.error ("invalid environment: " ++ env)

/-- The candle-formatting part of `fetch_candles` (`okx_api.py` lines 77-87):
iterate the raw rows in reverse order (`data["data"][::-1]`), dividing the
millisecond timestamp by 1000. -/
def fetch_candles_format (rows : List RawRow) : List Candle :=
  rows.reverse.map fun r =>
    { timestamp := (r.ts : ℚ) / 1000, open_ := r.o, high := r.h,
      low := r.l, close := r.c, volume := r.v }

/-- One attempt of the body of `fetch_ticker` (`okx_api.py` lines 47-65):
the body first resolves the domain via `get_okx_domain` — an invalid
environment string raises inside the wrapped body — and only then performs
the network request, whose outcome on attempt `i` is abstracted as `net i`. -/
def fetch_ticker_attempt (net : ℕ → Option ℚ) (env : String) (i : ℕ) : Option ℚ :=
  match get_okx_domain env with
  | Except.error _ => none
  | Except.ok _ => net i

/-- A full call of `fetch_ticker`, which is wrapped by
`@request_retry(retry_times=3, retry_delay=3)` (`okx_api.py` line 47). -/
def fetch_ticker_run (net : ℕ → Option ℚ) (env : String) :
    List Utils.RetryEvent × Option ℚ :=
  Utils.request_retry_run (fetch_ticker_attempt net env) 3 3

end OkxApi

namespace Tool

/-! ## `okx_trade_tool.py` -/

/-- The EMA recursion `ema[i] = alpha * p + (1 - alpha) * ema[i-1]`
(`okx_trade_tool.py` lines 46-47), producing the values for the remaining
prices given the previous EMA value. -/
def emaRec (alpha : ℚ) (prev : ℚ) : List ℚ → List ℚ
  | [] => []
  | p :: ps =>
    let v := alpha * p + (1 - alpha) * prev
    v :: emaRec alpha v ps

/-- `calculate_ema` (`okx_trade_tool.py` lines 41-48): zeros before index
`period - 1`, the plain mean of the first `period` prices at index
`period - 1`, then the EMA recursion.  All callers guard
`period ≤ prices.length`. -/
def calculate_ema (prices : List ℚ) (period : ℕ) : List ℚ :=
  let alpha : ℚ := 2 / ((period : ℚ) + 1)
  let seed : ℚ := (prices.take period).sum / (period : ℚ)
  List.replicate (period - 1) 0 ++ seed :: emaRec alpha seed (prices.drop period)

/-- `calculate_macd` (`okx_trade_tool.py` lines 50-60): returns the MACD
line and the signal line, empty when there is not enough history. -/
def calculate_macd (close_prices : List ℚ) (fastperiod slowperiod signalperiod : ℕ) :
    List ℚ × List ℚ :=
  if close_prices.length < max (max fastperiod slowperiod) signalperiod + 1 then
    ([], [])
  else
    let ema_fast := calculate_ema close_prices fastperiod
    let ema_slow := calculate_ema close_prices slowperiod
    let macd_line := List.zipWith (fun a b => a - b) ema_fast ema_slow
    let signal_line := calculate_ema macd_line signalperiod
    let min_len := min macd_line.length signal_line.length
    (pySliceLast min_len macd_line, pySliceLast min_len signal_line)

/-- `calculate_atr` (`okx_trade_tool.py` lines 62-73): returns the sentinel
`0.0` — it does not raise — when there are fewer than `period + 1` candles;
otherwise `np.mean` of the last `period` true ranges. -/
def calculate_atr (candles : List CandleT) (period : ℕ) : ℚ :=
  if candles.length < period + 1 then 0
  else
    let tr_list := (candles.zip (candles.drop 1)).map fun p =>
      max (p.2.high - p.2.low) (max |p.2.high - p.1.close| |p.2.low - p.1.close|)
    round_dp 4 ((pySliceLast period tr_list).sum / ((pySliceLast period tr_list).length : ℚ))

/-- The MACD line (`okx_trade_tool.py` line 56): `ema_fast - ema_slow`. -/
def macd_line_of (closes : List ℚ) : List ℚ :=
  List.zipWith (fun a b => a - b) (calculate_ema closes 12) (calculate_ema closes 26)

/-- The MACD signal line (`okx_trade_tool.py` line 57): EMA-9 of the MACD
line. -/
def signal_line_of (closes : List ℚ) : List ℚ :=
  calculate_ema (macd_line_of closes) 9

/-- `l[-1]` of a list of floats (callers guard `2 ≤ l.length`). -/
def lastD (l : List ℚ) : ℚ := l.getD (l.length - 1) 0

/-- `l[-2]` of a list of floats (callers guard `2 ≤ l.length`). -/
def last2D (l : List ℚ) : ℚ := l.getD (l.length - 2) 0

/-- `get_single_timeframe_signal` (`okx_trade_tool.py` lines 75-90):
MACD golden cross ⇒ buy, death cross ⇒ sell, otherwise hold.  The Python
code binds `macd_line, signal_line = calculate_macd(close_prices)` once;
here the pure call is written out at each use. -/
def get_single_timeframe_signal (candles : List CandleT) : Signal :=
  if candles.length < 30 then Signal.hold
  else if (calculate_macd (candles.map CandleT.close) 12 26 9).1.length < 2 ∨
      (calculate_macd (candles.map CandleT.close) 12 26 9).2.length < 2 then
    Signal.hold
  else if lastD (calculate_macd (candles.map CandleT.close) 12 26 9).1 >
        lastD (calculate_macd (candles.map CandleT.close) 12 26 9).2 ∧
      last2D (calculate_macd (candles.map CandleT.close) 12 26 9).1 <
        last2D (calculate_macd (candles.map CandleT.close) 12 26 9).2 then
    Signal.buy
  else if lastD (calculate_macd (candles.map CandleT.close) 12 26 9).1 <
        lastD (calculate_macd (candles.map CandleT.close) 12 26 9).2 ∧
      last2D (calculate_macd (candles.map CandleT.close) 12 26 9).1 >
        last2D (calculate_macd (candles.map CandleT.close) 12 26 9).2 then
    Signal.sell
  else Signal.hold

/-- The configured resonance timeframes (`Config.TIMEFRAMES`). -/
def TIMEFRAMES : List String := ["15m", "1h", "4h"]

/-- The resonance combination step of `analyze_multi_timeframe`
(`okx_trade_tool.py` lines 146-151): `f` assigns each configured timeframe
its per-timeframe signal (the dict `timeframe_signals`). -/
def multi_timeframe_signal (f : String → Signal) : Signal :=
  let sigs := TIMEFRAMES.map f
  if sigs.all fun s => s = Signal.buy then Signal.buy
  else if sigs.all fun s => s = Signal.sell then Signal.sell
  else Signal.hold

/-- The candle-formatting part of `fetch_okx_candles` (`okx_trade_tool.py`
lines 119-129): map the raw rows, then `sorted(..., key=lambda x: x["ts"])`. -/
def fetch_okx_candles_format (rows : List RawRow) : List CandleT :=
  ((rows.map fun r =>
      ({ ts := r.ts, open_ := r.o, high := r.h, low := r.l, close := r.c,
         vol := r.v } : CandleT)).mergeSort fun a b => a.ts ≤ b.ts)

end Tool

namespace Main

/-! ## `src/src/main.py` -/

/-- Grid buy levels (`main.py` line 334):
`[round(current_price - grid_spacing * i, 4) for i in range(1, grid_levels+1)]`. -/
def buy_levels (current_price grid_spacing : ℚ) (grid_levels : ℕ) : List ℚ :=
  (List.range grid_levels).map fun (i : ℕ) =>
    round_dp 4 (current_price - grid_spacing * ((i : ℚ) + 1))

/-- Grid sell levels (`main.py` line 335). -/
def sell_levels (current_price grid_spacing : ℚ) (grid_levels : ℕ) : List ℚ :=
  (List.range grid_levels).map fun (i : ℕ) =>
    round_dp 4 (current_price + grid_spacing * ((i : ℚ) + 1))

/-- The position size before rounding (`main.py` lines 342-343):
`(coin_funds * risk_ratio) / (grid_spacing * leverage)`, then
`max(min(·, max_order_volume), min_order_volume)`. -/
def order_volume_raw (coin_funds risk_ratio grid_spacing leverage
    max_order_volume min_order_volume : ℚ) : ℚ :=
  max (min ((coin_funds * risk_ratio) / (grid_spacing * leverage))
        max_order_volume)
    min_order_volume

/-- The final position size (`main.py` line 344): rounded to 4 decimals. -/
def order_volume (coin_funds risk_ratio grid_spacing leverage
    max_order_volume min_order_volume : ℚ) : ℚ :=
  round_dp 4 (order_volume_raw coin_funds risk_ratio grid_spacing leverage
    max_order_volume min_order_volume)

end Main

/-! ## Spec-side definitions -/

/-- Clamping to `[lo, hi]`, the operation named by the spec's
"clamped to [minOrderVolume, maxOrderVolume]". -/
def clamp_spec (lo hi x : ℚ) : ℚ := max lo (min x hi)

/-- Modelled from the spec: the risk governor of spec §4.3.  No risk-governor
code (daily trade limit, consecutive-loss limit, daily-loss limit) exists
under `src/`; the spec says: "Before any new entry: reject if
tradeCountToday ≥ dailyTradeLimit, OR consecutiveLossCount ≥
maxConsecutiveLoss, OR dailyLossFraction ≥ maxDailyLoss. All three are
independent hard gates." -/
def risk_governor_rejects (dailyTradeLimit maxConsecutiveLoss : ℕ)
    (maxDailyLoss : ℚ) (tradeCountToday consecutiveLossCount : ℕ)
    (dailyLossFraction : ℚ) : Bool :=
  decide (dailyTradeLimit ≤ tradeCountToday) ||
  decide (maxConsecutiveLoss ≤ consecutiveLossCount) ||
  decide (maxDailyLoss ≤ dailyLossFraction)

deriving instance DecidableEq for Except

/-! ## Concrete test inputs -/

/-- A two-candle history (highs 10 and 12, lows 8 and 9, closes 9 and 11),
used to exercise the ATR boundary at `period = 2`. -/
def atrDemoCandles : List Candle :=
  [{ timestamp := 0, open_ := 9, high := 10, low := 8, close := 9, volume := 1 },
   { timestamp := 1, open_ := 9, high := 12, low := 9, close := 11, volume := 1 }]

/-- A behaviour that raises on the first two calls and returns `7` on the
third — the spec's "fails 2 times then succeeds" example. -/
def failsTwiceThenSucceeds : ℕ → Option ℕ :=
  fun i => if i < 2 then none else some 7

/-- A three-candle history with strictly increasing closes `1, 2, 4`,
used as the RSI witness input at `period = 2`. -/
def rsiDemoCandles : List Candle :=
  [{ timestamp := 0, open_ := 1, high := 1, low := 1, close := 1, volume := 1 },
   { timestamp := 1, open_ := 2, high := 2, low := 2, close := 2, volume := 1 },
   { timestamp := 2, open_ := 4, high := 4, low := 4, close := 4, volume := 1 }]

/-- A synthetic 34-candle series (closes zero except a bump of 13 at index 20
and a jump to 27 at index 33).  Scanning it prefix by prefix, the MACD line
crosses above the signal line exactly when candle 33 arrives: the signal
generator emits "buy" there and "hold" at every other prefix. -/
def c6Series : List CandleT :=
  (List.range 34).map fun (i : ℕ) =>
    { ts := (i : ℤ), open_ := 0, high := 0, low := 0,
      close := if i = 20 then 13 else if i = 33 then 27 else 0, vol := 0 }

/-- Two raw exchange rows, newest first (timestamps 2000 then 1000), used as
the candle-ordering witness input. -/
def newestFirstRows : List RawRow :=
  [{ ts := 2000, o := 5, h := 6, l := 4, c := 5, v := 1 },
   { ts := 1000, o := 3, h := 4, l := 2, c := 3, v := 1 }]

/-! ## Theorems: rounding toolkit -/

theorem ratFloor_eq_intFloor (x : ℚ) : x.floor = ⌊x⌋ :=
  (Rat.floor_def' x).trans (Rat.floor_def).symm

theorem floor_le_pyRound (x : ℚ) : ⌊x⌋ ≤ pyRound x := by
  simp only [pyRound, ratFloor_eq_intFloor]
  split_ifs <;> omega

theorem pyRound_le_floor_add_one (x : ℚ) : pyRound x ≤ ⌊x⌋ + 1 := by
  simp only [pyRound, ratFloor_eq_intFloor]
  split_ifs <;> omega

theorem pyRound_mono {x y : ℚ} (h : x ≤ y) : pyRound x ≤ pyRound y := by
  have hf : ⌊x⌋ ≤ ⌊y⌋ := Int.floor_mono h
  rcases lt_or_eq_of_le hf with hlt | heq
  · calc pyRound x ≤ ⌊x⌋ + 1 := pyRound_le_floor_add_one x
      _ ≤ ⌊y⌋ := by omega
      _ ≤ pyRound y := floor_le_pyRound y
  · simp only [pyRound, ratFloor_eq_intFloor, ← heq]
    have hxy : x - (⌊x⌋ : ℚ) ≤ y - (⌊x⌋ : ℚ) := by linarith
    split_ifs <;> first | omega | linarith

theorem pyRound_intCast (k : ℤ) : pyRound (k : ℚ) = k := by
  simp only [pyRound, ratFloor_eq_intFloor, Int.floor_intCast, sub_self]
  norm_num

theorem round_dp_mono (n : ℕ) {x y : ℚ} (h : x ≤ y) :
    round_dp n x ≤ round_dp n y := by
  have hp : (0:ℚ) < 10 ^ n := by positivity
  have h1 : pyRound (x * 10 ^ n) ≤ pyRound (y * 10 ^ n) :=
    pyRound_mono (mul_le_mul_of_nonneg_right h (le_of_lt hp))
  exact (div_le_div_iff_of_pos_right hp).mpr (by exact_mod_cast h1)

/-- `round(x, n)` is the identity on exact multiples of `10 ^ (-n)`. -/
theorem round_dp_exact (n : ℕ) (k : ℤ) :
    round_dp n ((k : ℚ) / 10 ^ n) = (k : ℚ) / 10 ^ n := by
  have : ((k : ℚ) / 10 ^ n) * 10 ^ n = (k : ℚ) := by
    field_simp
  rw [round_dp, this, pyRound_intCast]

theorem getD_map_range (f : ℕ → ℚ) {i N : ℕ} (h : i < N) :
    ((List.range N).map f).getD i 0 = f i := by
  simp [List.getD_eq_getElem?_getD, List.getElem?_map, List.getElem?_range h]

/-! ## Theorems: C1, the grid plan builder -/

/-- C1 counterexample.  The claim asserts, for every spacing `s > 0`, strict
monotonicity of the rounded ladders and exact symmetry around `p`.  Both fail:
with `p = 100`, `s = 0.00001` (positive but below the 0.0001 tick) the two buy
levels both round to `100`, so `buyLevels` is not strictly decreasing; and with
`p = 0.00002`, `s = 0.0001` rounding breaks the symmetry
`p - buyLevels[0] = sellLevels[0] - p`. -/
theorem claim_C1_counterexample :
    Main.buy_levels 100 (1/100000) 2 = [100, 100] ∧
    ¬ (Main.buy_levels 100 (1/100000) 2).Pairwise (fun a b => b < a) ∧
    ¬ ((2:ℚ)/100000 - (Main.buy_levels (2/100000) (1/10000) 1).getD 0 0 =
        (Main.sell_levels (2/100000) (1/10000) 1).getD 0 0 - 2/100000) :=
  of_decide_eq_true (by with_unfolding_all rfl)

/-- C1 (amended): buy level `i` is `round(p - s*i, 4)` and sell level `i` is
`round(p + s*i, 4)` for `i = 1..N`; for `s ≥ 0` the rounded buy ladder is
non-increasing and the sell ladder non-decreasing; and whenever `p` and `s`
are exact multiples of the 0.0001 tick with `s > 0`, the rounding is exact, the
ladders are strictly monotonic, and they are symmetric around `p`. -/
theorem claim_C1_grid_plan (p s : ℚ) (N : ℕ) :
    (∀ i, i < N →
      (Main.buy_levels p s N).getD i 0 = round_dp 4 (p - s * ((i : ℚ) + 1)) ∧
      (Main.sell_levels p s N).getD i 0 = round_dp 4 (p + s * ((i : ℚ) + 1))) ∧
    (0 ≤ s →
      (Main.buy_levels p s N).Pairwise (fun a b => b ≤ a) ∧
      (Main.sell_levels p s N).Pairwise (fun a b => a ≤ b)) ∧
    (∀ a b : ℤ, p = (a : ℚ) / 10 ^ 4 → s = (b : ℚ) / 10 ^ 4 → 0 < b →
      (Main.buy_levels p s N).Pairwise (fun x y => y < x) ∧
      (Main.sell_levels p s N).Pairwise (fun x y => x < y) ∧
      (∀ i, i < N →
        p - (Main.buy_levels p s N).getD i 0 =
          (Main.sell_levels p s N).getD i 0 - p)) := by
  refine ⟨?_, ?_, ?_⟩
  · intro i hi
    exact ⟨getD_map_range _ hi, getD_map_range _ hi⟩
  · intro hs
    constructor
    · rw [Main.buy_levels, List.pairwise_map]
      refine (List.pairwise_lt_range N).imp ?_
      intro i j hij
      refine round_dp_mono 4 ?_
      have hij' : (i : ℚ) + 1 ≤ (j : ℚ) + 1 := by
        exact_mod_cast by omega
      nlinarith
    · rw [Main.sell_levels, List.pairwise_map]
      refine (List.pairwise_lt_range N).imp ?_
      intro i j hij
      refine round_dp_mono 4 ?_
      have hij' : (i : ℚ) + 1 ≤ (j : ℚ) + 1 := by
        exact_mod_cast by omega
      nlinarith
  · intro a b hp hs hb
    have hbE : Main.buy_levels p s N =
        (List.range N).map fun (i : ℕ) => ((a - b * ((i : ℤ) + 1) : ℤ) : ℚ) / 10 ^ 4 := by
      rw [Main.buy_levels]
      refine List.map_congr_left ?_
      intro i _
      have harg : p - s * ((i : ℚ) + 1) = ((a - b * ((i : ℤ) + 1) : ℤ) : ℚ) / 10 ^ 4 := by
        subst hp hs
        push_cast
        ring
      rw [harg, round_dp_exact]
    have hsE : Main.sell_levels p s N =
        (List.range N).map fun (i : ℕ) => ((a + b * ((i : ℤ) + 1) : ℤ) : ℚ) / 10 ^ 4 := by
      rw [Main.sell_levels]
      refine List.map_congr_left ?_
      intro i _
      have harg : p + s * ((i : ℚ) + 1) = ((a + b * ((i : ℤ) + 1) : ℤ) : ℚ) / 10 ^ 4 := by
        subst hp hs
        push_cast
        ring
      rw [harg, round_dp_exact]
    have hten : (0:ℚ) < 10 ^ 4 := by norm_num
    refine ⟨?_, ?_, ?_⟩
    · rw [hbE, List.pairwise_map]
      refine (List.pairwise_lt_range N).imp ?_
      intro i j hij
      refine (div_lt_div_iff_of_pos_right hten).mpr ?_
      have : (a - b * ((j : ℤ) + 1)) < a - b * ((i : ℤ) + 1) := by
        have hij' : (i : ℤ) + 1 < (j : ℤ) + 1 := by exact_mod_cast by omega
        nlinarith
      exact_mod_cast this
    · rw [hsE, List.pairwise_map]
      refine (List.pairwise_lt_range N).imp ?_
      intro i j hij
      refine (div_lt_div_iff_of_pos_right hten).mpr ?_
      have : (a + b * ((i : ℤ) + 1)) < a + b * ((j : ℤ) + 1) := by
        have hij' : (i : ℤ) + 1 < (j : ℤ) + 1 := by exact_mod_cast by omega
        nlinarith
      exact_mod_cast this
    · intro i hi
      rw [hbE, hsE, getD_map_range _ hi, getD_map_range _ hi]
      subst hp hs
      push_cast
      ring

/-- Witness for C1 at `p = 100`, `s = 0.5`, `N = 2` (both tick multiples). -/
theorem claim_C1_witness :
    (Main.buy_levels 100 (1/2) 2).Pairwise (fun x y => y < x) ∧
    (Main.sell_levels 100 (1/2) 2).Pairwise (fun x y => x < y) :=
  ⟨((claim_C1_grid_plan 100 (1/2) 2).2.2 1000000 5000 (by norm_num) (by norm_num)
      (by norm_num)).1,
   ((claim_C1_grid_plan 100 (1/2) 2).2.2 1000000 5000 (by norm_num) (by norm_num)
      (by norm_num)).2.1⟩

/-! ## Theorems: C2, the position sizer -/

/-- C2: the position sizer computes `(B * r) / (s * L)` and clamps it to
`[minOrderVolume, maxOrderVolume]`; when the bounds are ordered, the clamped
volume lies in the interval. -/
theorem claim_C2_position_sizer (B r s L minV maxV : ℚ) (_hs : 0 < s) (_hL : 0 < L) :
    Main.order_volume_raw B r s L maxV minV =
      clamp_spec minV maxV ((B * r) / (s * L)) ∧
    (minV ≤ maxV →
      minV ≤ Main.order_volume_raw B r s L maxV minV ∧
      Main.order_volume_raw B r s L maxV minV ≤ maxV) := by
  constructor
  · rw [Main.order_volume_raw, clamp_spec, max_comm]
  · intro hmm
    exact ⟨le_max_right _ _, max_le (min_le_right _ _) hmm⟩

/-- Witness for C2 at `B = 100`, `r = 0.1`, `s = 2`, `L = 5`,
bounds `[0.01, 1000]`. -/
theorem claim_C2_witness :
    Main.order_volume_raw 100 (1/10) 2 5 1000 (1/100) =
      clamp_spec (1/100) 1000 ((100 * (1/10)) / (2 * 5)) ∧
    ((1:ℚ)/100 ≤ 1000 →
      (1:ℚ)/100 ≤ Main.order_volume_raw 100 (1/10) 2 5 1000 (1/100) ∧
      Main.order_volume_raw 100 (1/10) 2 5 1000 (1/100) ≤ 1000) :=
  claim_C2_position_sizer 100 (1/10) 2 5 (1/100) 1000 (by norm_num) (by norm_num)

/-! ## Theorems: C3, the risk governor -/

/-- C3: the risk governor rejects a new entry exactly when one of the three
thresholds is breached; each threshold alone suffices; and with
`dailyTradeLimit = 10`, `tradeCountToday = 10` (the other gates clear) the
entry is rejected. -/
theorem claim_C3_risk_governor (dailyTradeLimit maxConsecutiveLoss : ℕ)
    (maxDailyLoss : ℚ) (tradeCountToday consecutiveLossCount : ℕ)
    (dailyLossFraction : ℚ) :
    (risk_governor_rejects dailyTradeLimit maxConsecutiveLoss maxDailyLoss
        tradeCountToday consecutiveLossCount dailyLossFraction = true ↔
      dailyTradeLimit ≤ tradeCountToday ∨
      maxConsecutiveLoss ≤ consecutiveLossCount ∨
      maxDailyLoss ≤ dailyLossFraction) ∧
    (dailyTradeLimit ≤ tradeCountToday →
      risk_governor_rejects dailyTradeLimit maxConsecutiveLoss maxDailyLoss
        tradeCountToday consecutiveLossCount dailyLossFraction = true) ∧
    (maxConsecutiveLoss ≤ consecutiveLossCount →
      risk_governor_rejects dailyTradeLimit maxConsecutiveLoss maxDailyLoss
        tradeCountToday consecutiveLossCount dailyLossFraction = true) ∧
    (maxDailyLoss ≤ dailyLossFraction →
      risk_governor_rejects dailyTradeLimit maxConsecutiveLoss maxDailyLoss
        tradeCountToday consecutiveLossCount dailyLossFraction = true) ∧
    risk_governor_rejects 10 5 (5/100) 10 0 0 = true := by
  have hiff : risk_governor_rejects dailyTradeLimit maxConsecutiveLoss maxDailyLoss
      tradeCountToday consecutiveLossCount dailyLossFraction = true ↔
      dailyTradeLimit ≤ tradeCountToday ∨
      maxConsecutiveLoss ≤ consecutiveLossCount ∨
      maxDailyLoss ≤ dailyLossFraction := by
    simp [risk_governor_rejects, or_assoc]
  refine ⟨hiff, ?_, ?_, ?_, ?_⟩
  · intro h; exact hiff.mpr (Or.inl h)
  · intro h; exact hiff.mpr (Or.inr (Or.inl h))
  · intro h; exact hiff.mpr (Or.inr (Or.inr h))
  · decide

/-- Witness for C3: a count strictly above the limit is also rejected. -/
theorem claim_C3_witness :
    risk_governor_rejects 10 5 (5/100) 12 0 0 = true :=
  (claim_C3_risk_governor 10 5 (5/100) 12 0 0).2.1 (by norm_num)

/-! ## Theorems: C4, insufficient data for ATR -/

/-- C4 counterexample.  The claim: with fewer than `period + 1` candles the
ATR computation fails with an error.  But `calculate_atr` in `utils.py`
guards only `len(candles) < period`: with exactly `period = 2` candles
(fewer than 3) it returns the numeric value `1.5` — the single true range 3
divided by the full period 2 — instead of failing. -/
theorem claim_C4_counterexample :
    atrDemoCandles.length < 2 + 1 ∧
    Utils.calculate_atr atrDemoCandles 2 = Except.ok (3/2) :=
  of_decide_eq_true (by with_unfolding_all rfl)

/-- C4 (amended): `utils.py`'s `calculate_atr` signals insufficient data
only when there are fewer than `period` candles (with exactly `period`
candles it returns a numeric value averaged over `period - 1` true ranges),
while `okx_trade_tool.py`'s `calculate_atr` returns the sentinel `0.0`
— without raising — whenever there are fewer than `period + 1` candles. -/
theorem claim_C4_atr_insufficient (period : ℕ) :
    (∀ candles : List Candle, candles.length < period →
      Utils.calculate_atr candles period =
        Except.error "insufficient candles for ATR") ∧
    (∀ candles : List CandleT, candles.length < period + 1 →
      Tool.calculate_atr candles period = 0) := by
  constructor
  · intro candles h
    simp [Utils.calculate_atr, if_pos h]
  · intro candles h
    simp [Tool.calculate_atr, if_pos h]

/-- Witness for C4 on one-candle histories at `period = 2`. -/
theorem claim_C4_witness :
    Utils.calculate_atr (atrDemoCandles.take 1) 2 =
      Except.error "insufficient candles for ATR" ∧
    Tool.calculate_atr [] 2 = 0 :=
  ⟨(claim_C4_atr_insufficient 2).1 _ (by decide),
   (claim_C4_atr_insufficient 2).2 [] (by decide)⟩

/-! ## Theorems: C5, multi-timeframe resonance -/

/-- C5: the resonance signal is "buy" exactly when every configured timeframe
signals "buy", "sell" exactly when every timeframe signals "sell", "hold" in
every other case; and `{15m: buy, 1h: buy, 4h: sell}` yields "hold". -/
theorem claim_C5_resonance (f : String → Signal) :
    (Tool.multi_timeframe_signal f = Signal.buy ↔
      ∀ tf ∈ Tool.TIMEFRAMES, f tf = Signal.buy) ∧
    (Tool.multi_timeframe_signal f = Signal.sell ↔
      ∀ tf ∈ Tool.TIMEFRAMES, f tf = Signal.sell) ∧
    (Tool.multi_timeframe_signal f = Signal.hold ↔
      (¬ ∀ tf ∈ Tool.TIMEFRAMES, f tf = Signal.buy) ∧
      (¬ ∀ tf ∈ Tool.TIMEFRAMES, f tf = Signal.sell)) ∧
    Tool.multi_timeframe_signal
      (fun tf => if tf = "4h" then Signal.sell else Signal.buy) = Signal.hold := by
  refine ⟨?_, ?_, ?_, of_decide_eq_true (by with_unfolding_all rfl)⟩ <;>
    · cases h15 : f "15m" <;> cases h1h : f "1h" <;> cases h4h : f "4h" <;>
        simp [Tool.multi_timeframe_signal, Tool.TIMEFRAMES, h15, h1h, h4h]

/-- Witness for C5: the all-hold assignment resonates to "hold". -/
theorem claim_C5_witness :
    Tool.multi_timeframe_signal (fun _ => Signal.hold) = Signal.hold :=
  (claim_C5_resonance (fun _ => Signal.hold)).2.2.1.mpr
    (by constructor <;> intro h <;> simpa using h "15m" (by simp [Tool.TIMEFRAMES]))

/-! ## Theorems: C7, the retry wrapper -/

theorem numAttempts_cons (e : Utils.RetryEvent) (tr : List Utils.RetryEvent) :
    Utils.numAttempts (e :: tr) =
      (match e with
        | Utils.RetryEvent.attempt _ => 1
        | _ => 0) + Utils.numAttempts tr := by
  cases e <;> simp [Utils.numAttempts, List.countP_cons] <;> omega

theorem numSleeps_cons (e : Utils.RetryEvent) (tr : List Utils.RetryEvent) :
    Utils.numSleeps (e :: tr) =
      (match e with
        | Utils.RetryEvent.sleep _ => 1
        | _ => 0) + Utils.numSleeps tr := by
  cases e <;> simp [Utils.numSleeps, List.countP_cons] <;> omega

theorem request_retry_go_attempts_le (behavior : ℕ → Option α) (D : ℚ) :
    ∀ n i, Utils.numAttempts (Utils.request_retry_go behavior D n i).1 ≤ n := by
  intro n
  induction n with
  | zero => intro i; simp [Utils.request_retry_go, Utils.numAttempts]
  | succ n ih =>
    intro i
    rw [Utils.request_retry_go]
    cases hb : behavior i with
    | some a => simp [Utils.numAttempts, List.countP_cons]
    | none =>
      simp only [numAttempts_cons]
      have := ih (i + 1)
      omega

theorem request_retry_go_sleeps_eq (behavior : ℕ → Option α) (D : ℚ) :
    ∀ n i d, Utils.RetryEvent.sleep d ∈ (Utils.request_retry_go behavior D n i).1 →
      d = D := by
  intro n
  induction n with
  | zero => intro i d h; simp [Utils.request_retry_go] at h
  | succ n ih =>
    intro i d h
    rw [Utils.request_retry_go] at h
    cases hb : behavior i with
    | some a =>
      rw [hb] at h
      simp at h
    | none =>
      rw [hb] at h
      simp only [List.mem_cons] at h
      rcases h with h | h | h
      · exact absurd h (by simp)
      · exact (Utils.RetryEvent.sleep.injEq _ _).mp h.symm |>.symm
      · exact ih (i + 1) d h

theorem request_retry_go_all_fail (behavior : ℕ → Option α) (D : ℚ)
    (hfail : ∀ i, behavior i = none) :
    ∀ n i, (Utils.request_retry_go behavior D n i).2 = none ∧
      Utils.numAttempts (Utils.request_retry_go behavior D n i).1 = n ∧
      Utils.numSleeps (Utils.request_retry_go behavior D n i).1 = n := by
  intro n
  induction n with
  | zero => intro i; simp [Utils.request_retry_go, Utils.numAttempts, Utils.numSleeps]
  | succ n ih =>
    intro i
    rw [Utils.request_retry_go, hfail i]
    have := ih (i + 1)
    simp only [numAttempts_cons, numSleeps_cons]
    refine ⟨this.1, ?_, ?_⟩ <;> omega

/-- C7: the retry wrapper makes at most `N` attempts of the wrapped function;
every sleep in its trace lasts exactly `retry_delay`; if every attempt fails
it raises (outcome `none`) after exactly `N` attempts (sleeping after each
failure); and a function failing twice then succeeding, under
`retry_times = 3`, returns the success value with exactly two sleeps. -/
theorem claim_C7_retry_wrapper :
    (∀ (α : Type) (behavior : ℕ → Option α) (N : ℕ) (D : ℚ),
      Utils.numAttempts (Utils.request_retry_run behavior N D).1 ≤ N ∧
      (∀ d, Utils.RetryEvent.sleep d ∈ (Utils.request_retry_run behavior N D).1 →
        d = D) ∧
      ((∀ i, behavior i = none) →
        (Utils.request_retry_run behavior N D).2 = none ∧
        Utils.numAttempts (Utils.request_retry_run behavior N D).1 = N ∧
        Utils.numSleeps (Utils.request_retry_run behavior N D).1 = N)) ∧
    (Utils.request_retry_run failsTwiceThenSucceeds 3 3 =
      ([Utils.RetryEvent.attempt false, Utils.RetryEvent.sleep 3,
        Utils.RetryEvent.attempt false, Utils.RetryEvent.sleep 3,
        Utils.RetryEvent.attempt true], some 7) ∧
      Utils.numSleeps (Utils.request_retry_run failsTwiceThenSucceeds 3 3).1 = 2) := by
  refine ⟨?_, of_decide_eq_true (by with_unfolding_all rfl)⟩
  intro α behavior N D
  exact ⟨request_retry_go_attempts_le behavior D N 0,
    fun d h => request_retry_go_sleeps_eq behavior D N 0 d h,
    fun hfail => request_retry_go_all_fail behavior D hfail N 0⟩

/-- Witness for C7: an always-failing behaviour under `retry_times = 2`
raises after exactly two attempts and two sleeps. -/
theorem claim_C7_witness :
    (Utils.request_retry_run (fun _ => (none : Option ℕ)) 2 3).2 = none ∧
    Utils.numAttempts (Utils.request_retry_run (fun _ => (none : Option ℕ)) 2 3).1 = 2 ∧
    Utils.numSleeps (Utils.request_retry_run (fun _ => (none : Option ℕ)) 2 3).1 = 2 :=
  (claim_C7_retry_wrapper.1 ℕ (fun _ => none) 2 3).2.2 (fun _ => rfl)

/-! ## Theorems: C8, invalid environment handling -/

/-- C8 counterexample.  The claim: an invalid environment string raises a
validation error immediately, with no retry attempts and no retry delay.  In
the code `get_okx_domain` is called inside the body wrapped by
`request_retry`, so with environment `"test"` the call is attempted 3 times
with 3 sleeps (even when the network would succeed), then raises the generic
retry-exhausted error. -/
theorem claim_C8_counterexample :
    (OkxApi.fetch_ticker_run (fun _ => some 1) "test").2 = none ∧
    Utils.numAttempts (OkxApi.fetch_ticker_run (fun _ => some 1) "test").1 = 3 ∧
    Utils.numSleeps (OkxApi.fetch_ticker_run (fun _ => some 1) "test").1 = 3 :=
  of_decide_eq_true (by with_unfolding_all rfl)

/-- C8 (amended): for every environment string that is neither "实盘" nor
"模拟盘", `fetch_ticker` is retried like any other error: its wrapped body is
attempted 3 times, with a 3-second sleep after each failure, and the call then
raises the generic retry-exhausted error — the validation error does not
bypass the retry loop. -/
theorem claim_C8_invalid_env_is_retried (net : ℕ → Option ℚ) (env : String)
    (h1 : env ≠ "实盘") (h2 : env ≠ "模拟盘") :
    OkxApi.fetch_ticker_run net env =
      ([Utils.RetryEvent.attempt false, Utils.RetryEvent.sleep 3,
        Utils.RetryEvent.attempt false, Utils.RetryEvent.sleep 3,
        Utils.RetryEvent.attempt false, Utils.RetryEvent.sleep 3], none) := by
  have hdom : OkxApi.get_okx_domain env =
      Except.error ("invalid environment: " ++ env) := by
    rw [OkxApi.get_okx_domain, if_neg h1, if_neg h2]
  have hatt : ∀ i, OkxApi.fetch_ticker_attempt net env i = none := by
    intro i
    rw [OkxApi.fetch_ticker_attempt, hdom]
  rw [OkxApi.fetch_ticker_run, Utils.request_retry_run,
    Utils.request_retry_go, hatt 0, Utils.request_retry_go, hatt 1,
    Utils.request_retry_go, hatt 2, Utils.request_retry_go]

/-- Witness for C8 with environment `"x"`. -/
theorem claim_C8_witness :
    OkxApi.fetch_ticker_run (fun _ => none) "x" =
      ([Utils.RetryEvent.attempt false, Utils.RetryEvent.sleep 3,
        Utils.RetryEvent.attempt false, Utils.RetryEvent.sleep 3,
        Utils.RetryEvent.attempt false, Utils.RetryEvent.sleep 3], none) :=
  claim_C8_invalid_env_is_retried (fun _ => none) "x"
    (of_decide_eq_true (by with_unfolding_all rfl))
    (of_decide_eq_true (by with_unfolding_all rfl))

/-! ## Theorems: C9, candle ordering -/

/-- C9: for every raw exchange response ordered newest-first, the candle list
returned by `fetch_candles` (`src/okx_api.py`, which reverses the rows) is
ascending by timestamp; and the list returned by `fetch_okx_candles`
(`okx_trade_tool.py`, which sorts by `ts`) is ascending for every response. -/
theorem claim_C9_candles_ascending :
    (∀ rows : List RawRow, rows.Pairwise (fun a b => b.ts ≤ a.ts) →
      (OkxApi.fetch_candles_format rows).Pairwise
        (fun a b => a.timestamp ≤ b.timestamp)) ∧
    (∀ rows : List RawRow,
      (Tool.fetch_okx_candles_format rows).Pairwise (fun a b => a.ts ≤ b.ts)) := by
  constructor
  · intro rows h
    rw [OkxApi.fetch_candles_format, List.pairwise_map, List.pairwise_reverse]
    refine h.imp ?_
    intro a b hba
    have hc : (b.ts : ℚ) ≤ (a.ts : ℚ) := by exact_mod_cast hba
    have : (0:ℚ) < 1000 := by norm_num
    exact (div_le_div_iff_of_pos_right this).mpr hc
  · intro rows
    rw [Tool.fetch_okx_candles_format]
    refine (List.sorted_mergeSort ?_ ?_ _).imp ?_
    · intro a b c hab hbc
      simp only [decide_eq_true_eq] at *
      exact le_trans hab hbc
    · intro a b
      simp only [Bool.or_eq_true, decide_eq_true_eq]
      exact le_total a.ts b.ts
    · intro a b h
      simpa using h

/-- Witness for C9 on a two-row newest-first response. -/
theorem claim_C9_witness :
    (OkxApi.fetch_candles_format newestFirstRows).Pairwise
      (fun a b => a.timestamp ≤ b.timestamp) :=
  claim_C9_candles_ascending.1 newestFirstRows
    (of_decide_eq_true (by with_unfolding_all rfl))

/-! ## Theorems: C6, the MACD crossover signal -/

theorem emaRec_length (alpha prev : ℚ) (l : List ℚ) :
    (Tool.emaRec alpha prev l).length = l.length := by
  induction l generalizing prev with
  | nil => rfl
  | cons p ps ih => simp [Tool.emaRec, ih]

theorem calculate_ema_length (prices : List ℚ) (period : ℕ) (h1 : 1 ≤ period)
    (h2 : period ≤ prices.length) :
    (Tool.calculate_ema prices period).length = prices.length := by
  simp only [Tool.calculate_ema, List.length_append, List.length_replicate,
    List.length_cons, emaRec_length, List.length_drop]
  omega

theorem macd_line_length (closes : List ℚ) (h : 26 ≤ closes.length) :
    (Tool.macd_line_of closes).length = closes.length := by
  rw [Tool.macd_line_of, List.length_zipWith,
    calculate_ema_length _ 12 (by omega) (by omega),
    calculate_ema_length _ 26 (by omega) h]
  omega

theorem signal_line_length (closes : List ℚ) (h : 26 ≤ closes.length) :
    (Tool.signal_line_of closes).length = closes.length := by
  rw [Tool.signal_line_of,
    calculate_ema_length _ 9 (by omega) (by rw [macd_line_length closes h]; omega),
    macd_line_length closes h]

theorem pySliceLast_self (l : List ℚ) : pySliceLast l.length l = l := by
  rw [pySliceLast]
  split_ifs with h
  · rfl
  · rw [Nat.sub_self, List.drop_zero]

/-- With at least 27 closes, `calculate_macd` returns exactly the MACD line
and the signal line (the alignment slice is the identity). -/
theorem calculate_macd_eq (closes : List ℚ) (h : 27 ≤ closes.length) :
    Tool.calculate_macd closes 12 26 9 =
      (Tool.macd_line_of closes, Tool.signal_line_of closes) := by
  rw [Tool.calculate_macd]
  simp only [show max (max 12 26) 9 + 1 = 27 from rfl]
  rw [if_neg (by omega : ¬ closes.length < 27)]
  have hm : (Tool.macd_line_of closes).length = closes.length :=
    macd_line_length closes (by omega)
  have hs : (Tool.signal_line_of closes).length = closes.length :=
    signal_line_length closes (by omega)
  show (pySliceLast
      (min (Tool.macd_line_of closes).length (Tool.signal_line_of closes).length)
      (Tool.macd_line_of closes),
    pySliceLast
      (min (Tool.macd_line_of closes).length (Tool.signal_line_of closes).length)
      (Tool.signal_line_of closes)) = _
  rw [hm, hs, min_self]
  refine Prod.ext ?_ ?_
  · show pySliceLast closes.length (Tool.macd_line_of closes) = _
    conv_lhs => rw [← hm]
    exact pySliceLast_self _
  · show pySliceLast closes.length (Tool.signal_line_of closes) = _
    conv_lhs => rw [← hs]
    exact pySliceLast_self _

set_option maxRecDepth 100000 in
/-- C6: on every series long enough for the signal generator (at least 30
candles), the emitted signal is "buy" exactly when the MACD line crosses
above the signal line (`macd[-1] > signal[-1]` and `macd[-2] < signal[-2]`),
"sell" exactly when it crosses below, and "hold" otherwise; and on the
synthetic 34-candle series `c6Series`, whose single crossover arrives with
candle 33, scanning the prefixes emits "hold" at every prefix and "buy"
exactly at the full 34-candle prefix. -/
theorem claim_C6_signal_generator :
    (∀ candles : List CandleT, 30 ≤ candles.length →
      (Tool.get_single_timeframe_signal candles = Signal.buy ↔
        Tool.lastD (Tool.macd_line_of (candles.map CandleT.close)) >
          Tool.lastD (Tool.signal_line_of (candles.map CandleT.close)) ∧
        Tool.last2D (Tool.macd_line_of (candles.map CandleT.close)) <
          Tool.last2D (Tool.signal_line_of (candles.map CandleT.close))) ∧
      (Tool.get_single_timeframe_signal candles = Signal.sell ↔
        Tool.lastD (Tool.macd_line_of (candles.map CandleT.close)) <
          Tool.lastD (Tool.signal_line_of (candles.map CandleT.close)) ∧
        Tool.last2D (Tool.macd_line_of (candles.map CandleT.close)) >
          Tool.last2D (Tool.signal_line_of (candles.map CandleT.close))) ∧
      (Tool.get_single_timeframe_signal candles = Signal.hold ↔
        ¬ (Tool.lastD (Tool.macd_line_of (candles.map CandleT.close)) >
            Tool.lastD (Tool.signal_line_of (candles.map CandleT.close)) ∧
          Tool.last2D (Tool.macd_line_of (candles.map CandleT.close)) <
            Tool.last2D (Tool.signal_line_of (candles.map CandleT.close))) ∧
        ¬ (Tool.lastD (Tool.macd_line_of (candles.map CandleT.close)) <
            Tool.lastD (Tool.signal_line_of (candles.map CandleT.close)) ∧
          Tool.last2D (Tool.macd_line_of (candles.map CandleT.close)) >
            Tool.last2D (Tool.signal_line_of (candles.map CandleT.close))))) ∧
    (List.range 35).map
        (fun n => Tool.get_single_timeframe_signal (c6Series.take n)) =
      List.replicate 34 Signal.hold ++ [Signal.buy] := by
  constructor
  · intro candles hlen
    have hclen : 27 ≤ (candles.map CandleT.close).length := by
      rw [List.length_map]
      omega
    have hmacd := calculate_macd_eq (candles.map CandleT.close) hclen
    have hm : (Tool.macd_line_of (candles.map CandleT.close)).length =
        (candles.map CandleT.close).length :=
      macd_line_length _ (by omega)
    have hs : (Tool.signal_line_of (candles.map CandleT.close)).length =
        (candles.map CandleT.close).length :=
      signal_line_length _ (by omega)
    rw [Tool.get_single_timeframe_signal, if_neg (by omega : ¬ candles.length < 30),
      hmacd]
    have hguard2 : ¬ ((Tool.macd_line_of (candles.map CandleT.close),
        Tool.signal_line_of (candles.map CandleT.close)).1.length < 2 ∨
        (Tool.macd_line_of (candles.map CandleT.close),
        Tool.signal_line_of (candles.map CandleT.close)).2.length < 2) := by
      push_neg
      constructor
      · rw [hm, List.length_map]; omega
      · rw [hs, List.length_map]; omega
    rw [if_neg hguard2]
    by_cases h1 : Tool.lastD (Tool.macd_line_of (candles.map CandleT.close)) >
          Tool.lastD (Tool.signal_line_of (candles.map CandleT.close)) ∧
        Tool.last2D (Tool.macd_line_of (candles.map CandleT.close)) <
          Tool.last2D (Tool.signal_line_of (candles.map CandleT.close))
    · rw [if_pos h1]
      exact ⟨iff_of_true rfl h1,
        iff_of_false (by simp) (fun h2 => absurd h2.1 (lt_asymm h1.1)),
        iff_of_false (by simp) (fun hnn => hnn.1 h1)⟩
    · rw [if_neg h1]
      by_cases h2 : Tool.lastD (Tool.macd_line_of (candles.map CandleT.close)) <
            Tool.lastD (Tool.signal_line_of (candles.map CandleT.close)) ∧
          Tool.last2D (Tool.macd_line_of (candles.map CandleT.close)) >
            Tool.last2D (Tool.signal_line_of (candles.map CandleT.close))
      · rw [if_pos h2]
        exact ⟨iff_of_false (by simp) h1, iff_of_true rfl h2,
          iff_of_false (by simp) (fun hnn => hnn.2 h2)⟩
      · rw [if_neg h2]
        exact ⟨iff_of_false (by simp) h1, iff_of_false (by simp) h2,
          iff_of_true rfl ⟨h1, h2⟩⟩
  · exact of_decide_eq_true (by with_unfolding_all rfl)

/-- Witness for C6: the crossover characterisation applied to the full
synthetic series, which indeed satisfies the buy condition. -/
theorem claim_C6_witness :
    Tool.get_single_timeframe_signal c6Series = Signal.buy ↔
      Tool.lastD (Tool.macd_line_of (c6Series.map CandleT.close)) >
        Tool.lastD (Tool.signal_line_of (c6Series.map CandleT.close)) ∧
      Tool.last2D (Tool.macd_line_of (c6Series.map CandleT.close)) <
        Tool.last2D (Tool.signal_line_of (c6Series.map CandleT.close)) :=
  (claim_C6_signal_generator.1 c6Series (by decide)).1

/-! ## Theorems: C10, RSI bounds -/

/-- C10: with at least `period + 1` candles (`period ≥ 1`), `calculate_rsi`
returns a value in `[0, 100]`, equal to exactly `100.0` whenever the
close-to-close differences contain no decrease; with fewer candles it raises
an insufficient-data error. -/
theorem claim_C10_rsi_bounds (candles : List Candle) (period : ℕ) (hp : 1 ≤ period) :
    (candles.length < period + 1 →
      Utils.calculate_rsi candles period =
        Except.error "insufficient candles for RSI") ∧
    (period + 1 ≤ candles.length →
      ∃ r, Utils.calculate_rsi candles period = Except.ok r ∧ 0 ≤ r ∧ r ≤ 100 ∧
        ((∀ d ∈ Utils.close_deltas candles, 0 ≤ d) → r = 100)) := by
  constructor
  · intro h
    rw [Utils.calculate_rsi, if_pos h]
  · intro h
    have hguard : ¬ candles.length < period + 1 := by omega
    by_cases havg : Utils.avg_loss_of candles period = 0
    · refine ⟨100, ?_, by norm_num, by norm_num, fun _ => rfl⟩
      rw [Utils.calculate_rsi, if_neg hguard, if_pos havg]
    · have hlpos : ∀ x ∈ Utils.losses_of candles, 0 < x := by
        intro x hx
        rw [Utils.losses_of] at hx
        simp only [List.mem_map, List.mem_filter] at hx
        obtain ⟨d, ⟨_, hd2⟩, rfl⟩ := hx
        have hd : d < 0 := by simpa using hd2
        linarith
      have hlnonempty : 0 < (Utils.losses_of candles).length := by
        by_contra hle
        exact havg (by rw [Utils.avg_loss_of, if_neg hle])
      have htakelen : 0 < ((Utils.losses_of candles).take period).length := by
        rw [List.length_take]
        omega
      have havg_loss_pos : 0 < Utils.avg_loss_of candles period := by
        rw [Utils.avg_loss_of, if_pos hlnonempty]
        apply div_pos
        · refine List.sum_pos _ ?_ ?_
          · intro x hx
            exact hlpos x (List.take_subset _ _ hx)
          · exact List.length_pos.mp htakelen
        · exact_mod_cast htakelen
      have hgain_nonneg : 0 ≤ Utils.avg_gain_of candles period := by
        rw [Utils.avg_gain_of]
        split_ifs with hg
        · apply div_nonneg _ (by positivity)
          apply List.sum_nonneg
          intro x hx
          have hx' : x ∈ Utils.gains_of candles := List.take_subset _ _ hx
          rw [Utils.gains_of] at hx'
          simp only [List.mem_filter] at hx'
          have : 0 < x := by simpa using hx'.2
          linarith
        · exact le_refl 0
      have hrs_nonneg :
          0 ≤ Utils.avg_gain_of candles period / Utils.avg_loss_of candles period :=
        div_nonneg hgain_nonneg (le_of_lt havg_loss_pos)
      set rs := Utils.avg_gain_of candles period / Utils.avg_loss_of candles period
        with hrs
      have h1rs : (0:ℚ) < 1 + rs := by linarith
      have hx0 : 0 ≤ 100 - 100 / (1 + rs) := by
        have hd : 100 / (1 + rs) ≤ 100 := div_le_self (by norm_num) (by linarith)
        linarith
      have hx100 : 100 - 100 / (1 + rs) < 100 := by
        have hd : 0 < 100 / (1 + rs) := div_pos (by norm_num) h1rs
        linarith
      refine ⟨round_dp 2 (100 - 100 / (1 + rs)), ?_, ?_, ?_, ?_⟩
      · rw [Utils.calculate_rsi, if_neg hguard, if_neg havg]
      · rw [round_dp]
        apply div_nonneg _ (by positivity)
        have hfl : (0:ℤ) ≤ ⌊(100 - 100 / (1 + rs)) * 10 ^ 2⌋ := by
          apply Int.le_floor.mpr
          have : (0:ℚ) ≤ (100 - 100 / (1 + rs)) * 10 ^ 2 :=
            mul_nonneg hx0 (by norm_num)
          exact_mod_cast this
        exact_mod_cast le_trans hfl (floor_le_pyRound _)
      · rw [round_dp, div_le_iff₀ (by positivity)]
        have hb1 : pyRound ((100 - 100 / (1 + rs)) * 10 ^ 2) ≤
            ⌊(100 - 100 / (1 + rs)) * 10 ^ 2⌋ + 1 := pyRound_le_floor_add_one _
        have hb2 : ⌊(100 - 100 / (1 + rs)) * 10 ^ 2⌋ < 10000 := by
          apply Int.floor_lt.mpr
          push_cast
          nlinarith
        have hb : pyRound ((100 - 100 / (1 + rs)) * 10 ^ 2) ≤ 10000 := by omega
        calc ((pyRound ((100 - 100 / (1 + rs)) * 10 ^ 2) : ℤ) : ℚ) ≤ 10000 := by
              exact_mod_cast hb
          _ = 100 * 10 ^ 2 := by norm_num
      · intro hnod
        exfalso
        apply havg
        have hfil : (Utils.close_deltas candles).filter (fun d => d < 0) = [] := by
          rw [List.filter_eq_nil_iff]
          intro d hd
          simpa using not_lt.mpr (hnod d hd)
        rw [Utils.avg_loss_of, Utils.losses_of, hfil]
        simp

/-- Witness for C10 at `period = 2` on three strictly increasing closes. -/
theorem claim_C10_witness :
    ∃ r, Utils.calculate_rsi rsiDemoCandles 2 = Except.ok r ∧ 0 ≤ r ∧ r ≤ 100 ∧
      ((∀ d ∈ Utils.close_deltas rsiDemoCandles, 0 ≤ d) → r = 100) :=
  (claim_C10_rsi_bounds rsiDemoCandles 2 (by norm_num)).2 (by decide)

end GridBot
